import Mathlib

/-!
# Verification of the design-token-bridge token pipeline

Shallow embedding of the token-extraction, validation and contrast-checking
code of the `design-token-bridge-mcp` repository, together with theorems
settling the frozen claims about its specification.

Conventions of the embedding:
* JavaScript strings are Lean `String`s; character-level operations mirror the
  ASCII behaviour of the JS string methods actually exercised by the code.
* JSON values (the result of `JSON.parse`) are the inductive `JsonV`; a JS
  `undefined` is `Option.none` while JSON `null` is `JsonV.jnull`.
* JS numbers are embedded as rationals (`ℚ`) where the code only performs
  exact arithmetic, and as reals (`ℝ`) for the contrast-ratio computation,
  whose gamma curve uses a non-integer power.
* Thrown exceptions are `Except.error` with the thrown message.
-/

namespace TokenBridge

/-! ## Character and string helpers (ASCII behaviour of the JS methods used) -/

/-- ASCII lower-case letter test, as used by the JS regexes `[a-z]`. -/
def isLowerAZ (c : Char) : Bool := 'a' ≤ c && c ≤ 'z'

/-- ASCII upper-case letter test, as used by the JS regexes `[A-Z]`. -/
def isUpperAZ (c : Char) : Bool := 'A' ≤ c && c ≤ 'Z'

/-- ASCII digit test (`[0-9]`). -/
def isDigit09 (c : Char) : Bool := '0' ≤ c && c ≤ '9'

/-- `String.prototype.toUpperCase`, per character (ASCII range). -/
def jsUpperChar (c : Char) : Char :=
  if isLowerAZ c then Char.ofNat (c.toNat - 32) else c

/-- `String.prototype.toLowerCase`, per character (ASCII range). -/
def jsLowerChar (c : Char) : Char :=
  if isUpperAZ c then Char.ofNat (c.toNat + 32) else c

/-- `s.toUpperCase()` (ASCII range). -/
def jsUpper (s : String) : String := String.mk (s.data.map jsUpperChar)

/-- `s.toLowerCase()` (ASCII range). -/
def jsLower (s : String) : String := String.mk (s.data.map jsLowerChar)

/-- Hex digit test (`[0-9a-fA-F]`). -/
def isHexDigit (c : Char) : Bool :=
  isDigit09 c || ('a' ≤ c && c ≤ 'f') || ('A' ≤ c && c ≤ 'F')

/-- Value of one hex digit; non-digits map to 0 (they never reach this point
on the inputs the code accepts). -/
def hexDigitVal (c : Char) : ℕ :=
  if isDigit09 c then c.toNat - '0'.toNat
  else if 'a' ≤ c && c ≤ 'f' then c.toNat - 'a'.toNat + 10
  else if 'A' ≤ c && c ≤ 'F' then c.toNat - 'A'.toNat + 10
  else 0

/-- `parseInt(s, 16)` restricted to the use in the code: value of the maximal
leading run of hex digits (the slices fed to it are pairs of hex digits). -/
def parseIntHex (cs : List Char) : ℕ :=
  (cs.takeWhile isHexDigit).foldl (fun a c => 16 * a + hexDigitVal c) 0

/-- JS whitespace test for `trim` / `\s` (the space-like characters the code
can meet in its inputs). -/
def isJsSpace (c : Char) : Bool :=
  c = ' ' || c = '\t' || c = '\n' || c = '\r'

/-- `s.trim()`. -/
def jsTrim (s : String) : String :=
  String.mk ((s.data.dropWhile isJsSpace).reverse.dropWhile isJsSpace |>.reverse)

/-- Word character (`\w` = `[A-Za-z0-9_]`). -/
def isWordChar (c : Char) : Bool :=
  isLowerAZ c || isUpperAZ c || isDigit09 c || c = '_'

/-! ## Hex-color predicates and normalization

`isHexLike` embeds `/^#[0-9a-fA-F]{3,8}$/.test(value)` from
`extract-tailwind.ts`; `normalizeHexColor` embeds `normalizeHexColor` from
the token validator (`src/utils/token-validator.ts`), whose body is identical
to `normalizeToHex` in `extract-tailwind.ts`. -/

/-- `/^#[0-9a-fA-F]{3,8}$/.test(value)`. -/
def isHexLike (s : String) : Bool :=
  match s.data with
  | '#' :: rest =>
      rest.all isHexDigit && decide (3 ≤ rest.length) && decide (rest.length ≤ 8)
  | _ => false

/-- `/^#[0-9a-fA-F]{3}$/.test(s)`. -/
def isHex3 (s : String) : Bool :=
  match s.data with
  | c :: rest => c = '#' && rest.all isHexDigit && decide (rest.length = 3)
  | [] => false

/--
```
if (/^#[0-9a-fA-F]{3}$/.test(hex)) {
  const [, r, g, b] = hex;
  return `#${r}${r}${g}${g}${b}${b}`.toUpperCase();
}
return hex.toUpperCase();
```
-/
def normalizeHexColor (hex : String) : String :=
  if isHex3 hex then
    match hex.data with
    | _ :: r :: g :: b :: _ =>
        jsUpper (String.mk ['#', r, r, g, g, b, b])
    | _ => jsUpper hex
  else jsUpper hex

/-- `normalizeToHex` from `extract-tailwind.ts` (same body as
`normalizeHexColor`). -/
def normalizeToHex (value : String) : String := normalizeHexColor value

/-! ## JSON values

`JsonV` models the result of `JSON.parse`: numbers are rationals (all the
numeric literals the code manipulates are exact decimals), objects keep their
fields in insertion order. A JS `undefined` is represented as `Option.none`
at use sites; `JsonV.jnull` is JSON `null`. -/

inductive JsonV where
  | jnull
  | jbool (b : Bool)
  | jnum (q : ℚ)
  | jstr (s : String)
  | jarr (elems : List JsonV)
  | jobj (fields : List (String × JsonV))

/-- JS property access `v[k]` for the object-shaped values the code walks:
`none` is JS `undefined` (absent key, or access on a primitive). -/
def jProp : JsonV → String → Option JsonV
  | .jobj fields, k => fields.lookup k
  | _, _ => none

/-- Optional chaining `v?.k` on an already-optional receiver. -/
def jPropChain (v : Option JsonV) (k : String) : Option JsonV :=
  match v with
  | none => none
  | some .jnull => none
  | some x => jProp x k

/-- JS nullish test (`undefined` or `null`), the condition of `??`. -/
def isNullish (v : Option JsonV) : Bool :=
  match v with
  | none => true
  | some .jnull => true
  | _ => false

/-- `typeof v === "object" && v !== null` truthy check; arrays count as
objects, `null` is excluded by the guards the code uses. -/
def isTruthyObject (v : Option JsonV) : Bool :=
  match v with
  | some (.jobj _) => true
  | some (.jarr _) => true
  | _ => false

/-- `Object.entries(v)` for the object-shaped values reached by the code:
object fields in order, array elements keyed by their decimal index. -/
def jEntries : JsonV → List (String × JsonV)
  | .jobj fields => fields
  | .jarr elems => (elems.enum).map (fun p => (toString p.1, p.2))
  | _ => []

/-! ## Canonical token model (`src/types/tokens.ts`) -/

structure ColorToken where
  value : String
  description : Option String := none
  category : Option String := none
  deriving DecidableEq, Repr

structure TypographyToken where
  fontFamily : Option String := none
  fontSize : ℚ := 0
  lineHeight : Option ℚ := none
  fontWeight : Option ℚ := none
  letterSpacing : Option ℚ := none
  deriving DecidableEq, Repr

structure ElevationToken where
  shadowColor : String
  shadowOffsetX : ℚ
  shadowOffsetY : ℚ
  shadowRadius : ℚ
  shadowOpacity : ℚ
  deriving DecidableEq, Repr

structure MotionToken where
  duration : ℚ
  easing : String
  deriving DecidableEq, Repr

/-- `DesignTokens`: six optional collections; a collection is an insertion
ordered association list (JS object). `none` is an absent (`undefined`)
collection. -/
structure DesignTokens where
  colors : Option (List (String × ColorToken)) := none
  typography : Option (List (String × TypographyToken)) := none
  spacing : Option (List (String × ℚ)) := none
  radii : Option (List (String × ℚ)) := none
  elevation : Option (List (String × ElevationToken)) := none
  motion : Option (List (String × MotionToken)) := none
  deriving DecidableEq, Repr

deriving instance DecidableEq for Except

/-- `result[name] = v` on a JS object: overwrite in place if the key exists
(keeping its original position), else append. -/
def objPut (l : List (String × α)) (k : String) (v : α) : List (String × α) :=
  if l.any (fun p => p.1 = k) then
    l.map (fun p => if p.1 = k then (k, v) else p)
  else l ++ [(k, v)]

/-- `Object.assign(dst, src)`: fold every binding of `src` into `dst`. -/
def objAssign (dst src : List (String × α)) : List (String × α) :=
  src.foldl (fun acc p => objPut acc p.1 p.2) dst

/-! ## Decimal-number parsing

`parseToPixels` embeds
```
const match = value.match(/^(-?\d+(?:\.\d+)?)\s*(px|rem|em)?$/);
if (!match) return null;
const num = parseFloat(match[1]);
switch (unit) { case "px": return num; case "rem": case "em": return num*16; }
```
shared verbatim by the Tailwind and CSS extractors (16px = 1rem/em). -/

/-- Value of a digit run as a natural number. -/
def digitsVal (cs : List Char) : ℕ :=
  cs.foldl (fun a c => 10 * a + (c.toNat - '0'.toNat)) 0

/-- Value of `intPart.fracPart` as an exact rational. -/
def decimalVal (intPart fracPart : List Char) : ℚ :=
  (digitsVal intPart : ℚ) + (digitsVal fracPart : ℚ) / ((10 : ℚ) ^ fracPart.length)

/-- Parse the anchored numeral `-?\d+(\.\d+)?` and return the remaining
characters; `none` when the front is not such a numeral. -/
def parseSignedDecimal (cs : List Char) : Option (ℚ × List Char) :=
  let (negSign, cs₁) :=
    match cs with
    | '-' :: rest => (true, rest)
    | _ => (false, cs)
  let intPart := cs₁.takeWhile isDigit09
  let cs₂ := cs₁.dropWhile isDigit09
  if intPart.isEmpty then none
  else
    match cs₂ with
    | '.' :: cs₃ =>
        let fracPart := cs₃.takeWhile isDigit09
        let cs₄ := cs₃.dropWhile isDigit09
        if fracPart.isEmpty then
          -- `(?:\.\d+)?` cannot match a bare dot: the group is skipped.
          some ((if negSign then -(decimalVal intPart []) else decimalVal intPart []), cs₂)
        else
          some ((if negSign then -(decimalVal intPart fracPart) else decimalVal intPart fracPart), cs₄)
    | _ => some ((if negSign then -(decimalVal intPart []) else decimalVal intPart []), cs₂)

/-- `parseToPixels` (Tailwind and CSS extractors; DTCG `parseDimension` uses
the same pattern on strings). -/
def parseToPixels (value : String) : Option ℚ :=
  match parseSignedDecimal value.data with
  | none => none
  | some (num, rest) =>
      let rest₁ := rest.dropWhile isJsSpace
      match rest₁ with
      | [] => some num                                     -- no unit ⇒ "px"
      | 'p' :: 'x' :: [] => some num
      | 'r' :: 'e' :: 'm' :: [] => some (num * 16)
      | 'e' :: 'm' :: [] => some (num * 16)
      | _ => none

/-- `parseInt(s, 10)` as used on font-weight strings: skip leading
whitespace, optional sign, then the maximal run of decimal digits; `none`
models `NaN`. -/
def parseIntBase10 (s : String) : Option ℤ :=
  let cs := s.data.dropWhile isJsSpace
  let (negSign, cs₁) :=
    match cs with
    | '-' :: rest => (true, rest)
    | '+' :: rest => (false, rest)
    | _ => (false, cs)
  let ds := cs₁.takeWhile isDigit09
  if ds.isEmpty then none
  else some (if negSign then -(digitsVal ds : ℤ) else (digitsVal ds : ℤ))

/-! ## The universal token schema (`src/schemas/universal-token-schema.ts`)

The zod schemas are embedded as issue-collecting validators: a validator
returns the list of `(path, message)` issues it reports, the empty list
meaning the value parses. Declared custom messages are copied verbatim;
zod's built-in type-mismatch messages are abbreviated to their leading
`Expected …` part (no claim depends on their exact text). A `.refine`
runs only when the underlying schema produced no issues, exactly as in zod. -/

/-- One validation issue: path into the value, and a message. -/
abbrev Issue := List String × String

def prefixIssues (k : String) (issues : List Issue) : List Issue :=
  issues.map (fun i => (k :: i.1, i.2))

/-- `/^#([0-9a-fA-F]{3}|[0-9a-fA-F]{6}|[0-9a-fA-F]{8})$/.test(s)`. -/
def isHexColorStr (s : String) : Bool :=
  match s.data with
  | '#' :: rest =>
      rest.all isHexDigit &&
        (decide (rest.length = 3) || decide (rest.length = 6) || decide (rest.length = 8))
  | _ => false

/-- `z.string()`. -/
def stringIssues (v : JsonV) : List Issue :=
  match v with
  | .jstr _ => []
  | _ => [([], "Expected string")]

/-- `hexColor = z.string().regex(..., "Must be a valid hex color (#RGB, #RRGGBB, or #RRGGBBAA)")`. -/
def hexColorIssues (v : JsonV) : List Issue :=
  match v with
  | .jstr s =>
      if isHexColorStr s then []
      else [([], "Must be a valid hex color (#RGB, #RRGGBB, or #RRGGBBAA)")]
  | _ => [([], "Expected string")]

def colorCategories : List String :=
  ["primary", "secondary", "tertiary", "neutral", "error", "surface", "background", "custom"]

/-- `z.enum([...])` for the color category. -/
def categoryIssues (v : JsonV) : List Issue :=
  match v with
  | .jstr s => if colorCategories.contains s then [] else [([], "Invalid enum value")]
  | _ => [([], "Invalid enum value")]

/-- `z.number()`. -/
def numberIssues (v : JsonV) : List Issue :=
  match v with
  | .jnum _ => []
  | _ => [([], "Expected number")]

/-- `z.number().positive(msg)`. -/
def positiveNumIssues (msg : String) (v : JsonV) : List Issue :=
  match v with
  | .jnum q => if 0 < q then [] else [([], msg)]
  | _ => [([], "Expected number")]

/-- `z.number().min(bound, msg)`. -/
def minNumIssues (bound : ℚ) (msg : String) (v : JsonV) : List Issue :=
  match v with
  | .jnum q => if q < bound then [([], msg)] else []
  | _ => [([], "Expected number")]

/--
```
fontWeight: z.number().int()
  .min(100, "fontWeight minimum is 100")
  .max(900, "fontWeight maximum is 900")
  .refine((v) => v % 100 === 0, "fontWeight must be a multiple of 100")
```
The `int`/`min`/`max` checks all report; the refinement runs only when they
all pass. -/
def fontWeightIssues (v : JsonV) : List Issue :=
  match v with
  | .jnum q =>
      let base :=
        (if q.den = 1 then [] else [([], "Expected integer")]) ++
        (if q < 100 then [([], "fontWeight minimum is 100")] else []) ++
        (if 900 < q then [([], "fontWeight maximum is 900")] else [])
      if base.isEmpty then
        if q.num % 100 = 0 then [] else [([], "fontWeight must be a multiple of 100")]
      else base
  | _ => [([], "Expected number")]

/-- A required object field: absent ⇒ `Required`, present ⇒ inner issues. -/
def requiredField (fields : List (String × JsonV)) (k : String)
    (f : JsonV → List Issue) : List Issue :=
  match fields.lookup k with
  | none => [([k], "Required")]
  | some v => prefixIssues k (f v)

/-- An `.optional()` object field: absent ⇒ no issues. -/
def optionalField (fields : List (String × JsonV)) (k : String)
    (f : JsonV → List Issue) : List Issue :=
  match fields.lookup k with
  | none => []
  | some v => prefixIssues k (f v)

/-- `colorToken` object schema. -/
def colorTokenIssues (v : JsonV) : List Issue :=
  match v with
  | .jobj fields =>
      requiredField fields "value" hexColorIssues ++
      optionalField fields "description" stringIssues ++
      optionalField fields "category" categoryIssues
  | _ => [([], "Expected object")]

/-- `typographyToken` object schema. -/
def typographyTokenIssues (v : JsonV) : List Issue :=
  match v with
  | .jobj fields =>
      optionalField fields "fontFamily" stringIssues ++
      requiredField fields "fontSize" (positiveNumIssues "fontSize must be positive") ++
      optionalField fields "lineHeight" (positiveNumIssues "lineHeight must be positive") ++
      optionalField fields "fontWeight" fontWeightIssues ++
      optionalField fields "letterSpacing" numberIssues
  | _ => [([], "Expected object")]

/-- `shadowOffset: z.object({ x: z.number(), y: z.number() })`. -/
def shadowOffsetIssues (v : JsonV) : List Issue :=
  match v with
  | .jobj fields =>
      requiredField fields "x" numberIssues ++ requiredField fields "y" numberIssues
  | _ => [([], "Expected object")]

/-- `shadowOpacity: z.number().min(0, ...).max(1, ...)`. -/
def shadowOpacityIssues (v : JsonV) : List Issue :=
  match v with
  | .jnum q =>
      (if q < 0 then [([], "shadowOpacity minimum is 0")] else []) ++
      (if 1 < q then [([], "shadowOpacity maximum is 1")] else [])
  | _ => [([], "Expected number")]

/-- `elevationToken` object schema. -/
def elevationTokenIssues (v : JsonV) : List Issue :=
  match v with
  | .jobj fields =>
      requiredField fields "shadowColor" hexColorIssues ++
      requiredField fields "shadowOffset" shadowOffsetIssues ++
      requiredField fields "shadowRadius" (minNumIssues 0 "shadowRadius cannot be negative") ++
      requiredField fields "shadowOpacity" shadowOpacityIssues
  | _ => [([], "Expected object")]

/-- `motionToken` object schema (`easing: z.string().min(1, ...)`). -/
def motionTokenIssues (v : JsonV) : List Issue :=
  match v with
  | .jobj fields =>
      requiredField fields "duration" (positiveNumIssues "duration must be positive") ++
      requiredField fields "easing"
        (fun e =>
          match e with
          | .jstr s => if s.isEmpty then [([], "easing cannot be empty")] else []
          | _ => [([], "Expected string")])
  | _ => [([], "Expected object")]

/-- `z.record(z.string(), valueSchema)`: every entry's value is validated,
the entry key becoming a path segment. -/
def recordIssues (f : JsonV → List Issue) (v : JsonV) : List Issue :=
  match v with
  | .jobj entries => entries.flatMap (fun p => prefixIssues p.1 (f p.2))
  | _ => [([], "Expected object")]

def sixCollectionKeys : List String :=
  ["colors", "typography", "spacing", "radii", "elevation", "motion"]

/-- `designTokensSchema`: the object of six optional record collections,
then the `.refine` requiring at least one collection to be defined. After a
successful object parse, a collection is defined exactly when its key is
present in the input object. -/
def designTokensIssues (v : JsonV) : List Issue :=
  match v with
  | .jobj fields =>
      let objIssues :=
        optionalField fields "colors" (recordIssues colorTokenIssues) ++
        optionalField fields "typography" (recordIssues typographyTokenIssues) ++
        optionalField fields "spacing" (recordIssues (minNumIssues 0 "spacing cannot be negative")) ++
        optionalField fields "radii" (recordIssues (minNumIssues 0 "radii cannot be negative")) ++
        optionalField fields "elevation" (recordIssues elevationTokenIssues) ++
        optionalField fields "motion" (recordIssues motionTokenIssues)
      if objIssues.isEmpty then
        if sixCollectionKeys.any (fun k => (fields.lookup k).isSome) then []
        else [([], "Token object must contain at least one token category")]
      else objIssues
  | _ => [([], "Expected object")]

structure ValidationResult where
  valid : Bool
  errors : List String
  deriving DecidableEq, Repr

/-- `${path.join(".")}: ${message}` with `(root)` for the empty path, as in
`validateTokens`. -/
def issueToString (i : Issue) : String :=
  (if i.1.isEmpty then "(root)" else String.intercalate "." i.1) ++ ": " ++ i.2

/-- `validateTokens` from `src/utils/token-validator.ts`: safe-parse against
`designTokensSchema`, reporting all issues as `path: message` strings. -/
def validateTokens (input : JsonV) : ValidationResult :=
  let issues := designTokensIssues input
  if issues.isEmpty then { valid := true, errors := [] }
  else { valid := false, errors := issues.map issueToString }

/-! ## Contrast checker (`src/tools/validate-contrast.ts`)

Luminance and ratio are computed over `ℝ` (the JS numbers here go through a
non-integer power). `linearize`, `relativeLuminance`, `contrastRatio`,
`findSemanticPairs` and `validateContrast` mirror the source functions. -/

/-- `c <= 0.03928 ? c / 12.92 : Math.pow((c + 0.055) / 1.055, 2.4)`. -/
noncomputable def linearize (c : ℝ) : ℝ :=
  if c ≤ 0.03928 then c / 12.92 else ((c + 0.055) / 1.055) ^ (2.4 : ℝ)

/-- `hex.replace("#", "")`: drop the first `#` occurrence. -/
def removeFirstHash : List Char → List Char
  | [] => []
  | c :: rest => if c = '#' then rest else c :: removeFirstHash rest

/-- 3-digit shortcut expansion `h[0]+h[0]+h[1]+h[1]+h[2]+h[2]`. -/
def expandShortHex (h : List Char) : List Char :=
  if h.length = 3 then
    match h with
    | [a, b, c] => [a, a, b, b, c, c]
    | _ => h
  else h

/-- The channel byte at offset `i` of the (expanded) hex digit string:
`parseInt(h.slice(i, i + 2), 16)`. -/
def hexChannel (hex : String) (i : ℕ) : ℕ :=
  parseIntHex (((expandShortHex (removeFirstHash hex.data)).drop i).take 2)

/-- `relativeLuminance(hex)` with the 0.2126/0.7152/0.0722 channel weights. -/
noncomputable def relativeLuminance (hex : String) : ℝ :=
  0.2126 * linearize ((hexChannel hex 0 : ℝ) / 255) +
    0.7152 * linearize ((hexChannel hex 2 : ℝ) / 255) +
    0.0722 * linearize ((hexChannel hex 4 : ℝ) / 255)

/-- `(lighter + 0.05) / (darker + 0.05)`. -/
noncomputable def contrastRatio (hex1 hex2 : String) : ℝ :=
  (max (relativeLuminance hex1) (relativeLuminance hex2) + 0.05) /
    (min (relativeLuminance hex1) (relativeLuminance hex2) + 0.05)

structure ColorPair where
  name : String
  fg : String
  bg : String
  deriving DecidableEq, Repr

/-- `bgName.charAt(0).toUpperCase() + bgName.slice(1)`. -/
def capitalizeFirst (s : String) : String :=
  match s.data with
  | [] => ""
  | c :: rest => String.mk (jsUpperChar c :: rest)

/-- First phase of `findSemanticPairs`: the `on-X` / `onX` companion pairs,
in the order of the two nested loops over the entries. -/
def onCompanionPairs (entries : List (String × ColorToken)) : List ColorPair :=
  entries.flatMap (fun bg =>
    let onName := "on-" ++ bg.1
    let onNameCamel := "on" ++ capitalizeFirst bg.1
    entries.filterMap (fun fg =>
      if fg.1 = onName ∨ fg.1 = onNameCamel then
        some ⟨fg.1 ++ " on " ++ bg.1, fg.2.value, bg.2.value⟩
      else none))

/-- `/^(text|foreground|fg|on-surface|on-background)$/i`. -/
def isForegroundLikeName (n : String) : Bool :=
  ["text", "foreground", "fg", "on-surface", "on-background"].contains (jsLower n)

/-- `/^(surface|background|bg|canvas)$/i`. -/
def isBackgroundLikeName (n : String) : Bool :=
  ["surface", "background", "bg", "canvas"].contains (jsLower n)

/-- One step of the second phase of `findSemanticPairs`: push the
`"<fg> on <bg>"` pair unless a pair with that name is already present. -/
def fallbackStep (acc : List ColorPair)
    (fgbg : (String × ColorToken) × (String × ColorToken)) : List ColorPair :=
  if acc.any (fun p => p.name = fgbg.1.1 ++ " on " ++ fgbg.2.1) then acc
  else acc ++ [⟨fgbg.1.1 ++ " on " ++ fgbg.2.1, fgbg.1.2.value, fgbg.2.2.value⟩]

/-- `findSemanticPairs`: the companion pairs, then the unconditional second
phase pairing foreground-like against background-like names, appending only
pairs whose `name` is not already in the list. -/
def findSemanticPairs (colors : List (String × ColorToken)) : List ColorPair :=
  ((colors.filter (fun p => isForegroundLikeName p.1)).flatMap
    (fun fg => (colors.filter (fun p => isBackgroundLikeName p.1)).map
      (fun bg => (fg, bg)))).foldl
    fallbackStep (onCompanionPairs colors)

/-- The exhaustive `i < j` double loop of `validateContrast`, used when no
semantic pair was found. -/
def allCombinationPairs : List (String × ColorToken) → List ColorPair
  | [] => []
  | e :: rest =>
      rest.map (fun f => ⟨e.1 ++ "/" ++ f.1, e.2.value, f.2.value⟩) ++
        allCombinationPairs rest

/-- The pair list `validateContrast` actually iterates: the semantic pairs,
or — exactly when there are none — every unordered combination. -/
def contrastPairsUsed (colors : List (String × ColorToken)) : List ColorPair :=
  let pairs := findSemanticPairs colors
  if pairs.isEmpty then allCombinationPairs colors else pairs

inductive WcagLevel where
  | AA
  | AAA
  deriving DecidableEq, Repr

/-- One per-pair result; the source's nested `aa`/`aaa` objects are
flattened into four Boolean fields. -/
structure ContrastResult where
  pair : String
  foreground : String
  background : String
  ratio : ℝ
  aaNormal : Bool
  aaLarge : Bool
  aaaNormal : Bool
  aaaLarge : Bool

structure ContrastReport where
  level : WcagLevel
  total : ℕ
  passing : ℕ
  failing : ℕ
  results : List ContrastResult

/-- The per-pair result record pushed by `validateContrast`: thresholds are
compared against the exact ratio, the reported ratio is rounded to two
decimals (`Math.round(ratio * 100) / 100`). -/
noncomputable def mkContrastResult (p : ColorPair) : ContrastResult :=
  let ratio := contrastRatio p.fg p.bg
  { pair := p.name
    foreground := p.fg
    background := p.bg
    ratio := (round (ratio * 100) : ℝ) / 100
    aaNormal := if (4.5 : ℝ) ≤ ratio then true else false
    aaLarge := if (3 : ℝ) ≤ ratio then true else false
    aaaNormal := if (7 : ℝ) ≤ ratio then true else false
    aaaLarge := if (4.5 : ℝ) ≤ ratio then true else false }

/-- The requested-level normal-text flag used by the `passing` filter. -/
def levelFlag (level : WcagLevel) (r : ContrastResult) : Bool :=
  match level with
  | .AA => r.aaNormal
  | .AAA => r.aaaNormal

/-- `validateContrast(tokens, level)` (the source defaults `level` to AA at
the call boundary; the embedding takes it explicitly). -/
noncomputable def validateContrast (tokens : DesignTokens) (level : WcagLevel) :
    ContrastReport :=
  match tokens.colors with
  | none => { level := level, total := 0, passing := 0, failing := 0, results := [] }
  | some colors =>
      if colors.length < 2 then
        { level := level, total := 0, passing := 0, failing := 0, results := [] }
      else
        { level := level
          total := ((contrastPairsUsed colors).map mkContrastResult).length
          passing :=
            (((contrastPairsUsed colors).map mkContrastResult).filter
              (levelFlag level)).length
          failing :=
            ((contrastPairsUsed colors).map mkContrastResult).length -
              (((contrastPairsUsed colors).map mkContrastResult).filter
                (levelFlag level)).length
          results := (contrastPairsUsed colors).map mkContrastResult }

/-! ## CSS custom-property extraction (`extract-css.ts` part of the tools)

`parseCustomProperties` strips block comments
(`css.replace(/\/\*[\s\S]*?\*\//g, "")`), then repeatedly matches
`/(--[\w-]+)\s*:\s*([^;]+);/g` and inserts each `(name, value.trim())`
match into a `Map` only when the name is not yet present — the first
declaration in textual order wins and later ones are silently ignored
(no error path exists in this function). -/

/-- Skip to just after the first `*/`; `none` when there is none (an
unterminated comment is not removed by the regex). -/
def dropToCommentEnd : List Char → Option (List Char)
  | [] => none
  | [_] => none
  | c :: c₂ :: rest =>
      if c = '*' ∧ c₂ = '/' then some rest else dropToCommentEnd (c₂ :: rest)

theorem dropToCommentEnd_length :
    ∀ (cs r : List Char), dropToCommentEnd cs = some r → r.length < cs.length := by
  intro cs
  induction cs with
  | nil => intro r h; simp [dropToCommentEnd] at h
  | cons c rest ih =>
    intro r h
    cases rest with
    | nil => simp [dropToCommentEnd] at h
    | cons c₂ rest₂ =>
      rw [dropToCommentEnd] at h
      split at h
      · cases h
        simp
        omega
      · have := ih r h
        simp at this ⊢
        omega

/-- The non-greedy global comment removal: each complete `/* … */` is
dropped, scanning resumes after it. Each step consumes at least one
character (`dropToCommentEnd_length`), so a character budget equal to the
input length runs the scan to completion. -/
def stripBlockCommentsFuel : ℕ → List Char → List Char
  | 0, cs => cs
  | _ + 1, [] => []
  | _ + 1, [c] => [c]
  | f + 1, c :: c₂ :: rest =>
      if c = '/' ∧ c₂ = '*' then
        match dropToCommentEnd rest with
        | some r => stripBlockCommentsFuel f r
        | none => c :: c₂ :: rest
      else c :: stripBlockCommentsFuel f (c₂ :: rest)

def stripBlockComments (cs : List Char) : List Char :=
  stripBlockCommentsFuel cs.length cs

/-- `[\w-]` — the characters of a custom-property name after `--`. -/
def isCssNameChar (c : Char) : Bool := isWordChar c || c = '-'

/-- `(l.dropWhile p).length ≤ l.length`. -/
theorem dropWhileLenLe (p : α → Bool) (l : List α) :
    (l.dropWhile p).length ≤ l.length := by
  induction l with
  | nil => simp [List.dropWhile]
  | cons a l ih =>
    rw [List.dropWhile]
    split
    · exact le_trans ih (Nat.le_succ _)
    · exact le_refl _

/-- Try `/(--[\w-]+)\s*:\s*([^;]+);/` anchored at the front of `cs`:
returns the declaration name, its raw value segment (trimmed), and the
characters after the terminating `;`. Greedy `[\w-]+` needs no
backtracking here (no name character can satisfy the following `\s*:`),
and `\s*([^;]+)` together make the segment between `:` and the next `;`,
which must be non-empty; trimming reproduces `match[2].trim()`. -/
def matchDeclAt (cs : List Char) : Option (String × String × List Char) :=
  match cs with
  | c :: c₂ :: cs₁ =>
      if c = '-' ∧ c₂ = '-' then
        if (cs₁.takeWhile isCssNameChar).isEmpty then none
        else
          match (cs₁.dropWhile isCssNameChar).dropWhile isJsSpace with
          | ':' :: cs₄ =>
              match cs₄.dropWhile (fun c => !(c = ';')) with
              | ';' :: cs₆ =>
                  if (cs₄.takeWhile (fun c => !(c = ';'))).isEmpty then none
                  else some (String.mk ('-' :: '-' :: cs₁.takeWhile isCssNameChar),
                             jsTrim (String.mk (cs₄.takeWhile (fun c => !(c = ';')))), cs₆)
              | _ => none
          | _ => none
      else none
  | _ => none

theorem matchDeclAt_length :
    ∀ (cs : List Char) (n v : String) (rest : List Char),
      matchDeclAt cs = some (n, v, rest) → rest.length < cs.length := by
  intro cs n v rest h
  match cs with
  | [] => simp [matchDeclAt] at h
  | [c] => simp [matchDeclAt] at h
  | c :: c₂ :: cs₁ =>
      rw [matchDeclAt] at h
      split at h
      · split at h
        · exact absurd h (by simp)
        · split at h
          case _ cs₄ heq =>
            split at h
            case _ cs₆ heq₂ =>
              split at h
              · exact absurd h (by simp)
              · have hr : rest = cs₆ := by
                  injection h with h'
                  exact (congrArg (fun t => t.2.2) h').symm
                have l₁ : ((cs₁.dropWhile isCssNameChar).dropWhile isJsSpace).length
                    = cs₄.length + 1 := by rw [heq]; simp
                have l₂ : ((cs₁.dropWhile isCssNameChar).dropWhile isJsSpace).length
                    ≤ cs₁.length :=
                  le_trans (dropWhileLenLe _ _) (dropWhileLenLe _ _)
                have l₃ : (cs₄.dropWhile (fun c => !(c = ';'))).length = cs₆.length + 1 := by
                  rw [heq₂]; simp
                have l₄ : (cs₄.dropWhile (fun c => !(c = ';'))).length ≤ cs₄.length :=
                  dropWhileLenLe _ _
                subst hr
                simp only [List.length_cons]
                omega
            case _ => exact absurd h (by simp)
          case _ => exact absurd h (by simp)
      · exact absurd h (by simp)

/-- The global `exec` loop: at each position try the declaration pattern;
on success record the match and resume after it, otherwise slide one
character forward. The loop consumes at least one character per step
(`matchDeclAt_length`), so running it on a character budget equal to the
input length is the loop itself. -/
def scanDeclsFuel : ℕ → List Char → List (String × String)
  | 0, _ => []
  | _ + 1, [] => []
  | f + 1, c :: rest =>
      match matchDeclAt (c :: rest) with
      | some (n, v, rest') => (n, v) :: scanDeclsFuel f rest'
      | none => scanDeclsFuel f rest

def scanDecls (cs : List Char) : List (String × String) := scanDeclsFuel cs.length cs

/-- `parseCustomProperties`: fold the matches into the map, first
declaration winning. -/
def parseCustomProperties (css : String) : List (String × String) :=
  (scanDecls (stripBlockComments css.data)).foldl
    (fun vars d => if vars.any (fun p => p.1 = d.1) then vars else vars ++ [d]) []

/-! ## JS string coercion and truthiness (used by the Tailwind extractor) -/

/-- Floor of a rational as an integer (`Int.fdiv` is floor division), kept
kernel-computable. -/
def ratFloor (q : ℚ) : ℤ := Int.fdiv q.num q.den

/-- Decimal digits of a rational in `[0, 1)`; the denominators produced by
the parsed configs are powers of 2·5, so 20 digits always suffice there. -/
def fracDigits : ℕ → ℚ → List Char
  | 0, _ => []
  | fuel + 1, q =>
      if q = 0 then []
      else
        let d := ratFloor (q * 10)
        Char.ofNat ('0'.toNat + d.toNat) :: fracDigits fuel (q * 10 - (d : ℚ))

/-- `String(n)` for the exact-decimal numbers the code manipulates. -/
def jsNumToString (q : ℚ) : String :=
  let a := |q|
  (if q < 0 then "-" else "") ++ toString (ratFloor a).toNat ++
    (if a - (ratFloor a : ℚ) = 0 then "" else
      "." ++ String.mk (fracDigits 20 (a - (ratFloor a : ℚ))))

mutual
/-- `String(v)` on a parsed JSON value. -/
def jsToString : JsonV → String
  | .jnull => "null"
  | .jbool b => if b then "true" else "false"
  | .jnum q => jsNumToString q
  | .jstr s => s
  | .jobj _ => "[object Object]"
  | .jarr xs => String.intercalate "," (jsArrParts xs)
termination_by structural v => v
/-- `Array.prototype.toString` = `join(",")`; `null` elements print empty. -/
def jsArrParts : List JsonV → List String
  | [] => []
  | x :: rest =>
      (match x with
       | .jnull => ""
       | y => jsToString y) :: jsArrParts rest
termination_by structural l => l
end

/-- JS truthiness of a possibly-`undefined` value. -/
def jsTruthy : Option JsonV → Bool
  | none => false
  | some .jnull => false
  | some (.jbool b) => b
  | some (.jnum q) => !(q = 0)
  | some (.jstr s) => !s.isEmpty
  | some (.jobj _) => true
  | some (.jarr _) => true

/-! ## Tailwind config extractor (`src/tools/extract-tailwind.ts`)

The embedding covers the token-population phase of
`extractTokensFromTailwind` (source lines 23–75), taking the theme object
already located by the textual `extractThemeObject` recovery step (that
recovery step is upstream of every claim). -/

mutual
/-- `extractColors(obj, prefix)` on an object-shaped value. -/
def extractColorsVal : JsonV → String → List (String × ColorToken)
  | .jobj fields, pfx => extractColorsFields fields pfx []
  | .jarr elems, pfx => extractColorsArr elems 0 pfx []
  | _, _ => []
termination_by structural v => v
/-- Body of `extractColors`: loop over `Object.entries`, writing hex-like
strings and recursively `Object.assign`-merging nested groups (objects and
arrays, the values with `typeof === "object"` other than `null`) under the
hyphen-joined name. -/
def extractColorsFields :
    List (String × JsonV) → String → List (String × ColorToken) →
      List (String × ColorToken)
  | [], _, acc => acc
  | (k, v) :: rest, pfx, acc =>
      let name := if pfx.isEmpty then k else pfx ++ "-" ++ k
      let acc' :=
        match v with
        | .jstr s =>
            if isHexLike s then objPut acc name { value := normalizeToHex s } else acc
        | .jnull => acc
        | .jbool _ => acc
        | .jnum _ => acc
        | x => objAssign acc (extractColorsVal x name)
      extractColorsFields rest pfx acc'
termination_by structural l => l
/-- `extractColors` over an array value (`Object.entries` yields the decimal
indices as keys). -/
def extractColorsArr :
    List JsonV → ℕ → String → List (String × ColorToken) →
      List (String × ColorToken)
  | [], _, _, acc => acc
  | v :: rest, i, pfx, acc =>
      let name := if pfx.isEmpty then toString i else pfx ++ "-" ++ toString i
      let acc' :=
        match v with
        | .jstr s =>
            if isHexLike s then objPut acc name { value := normalizeToHex s } else acc
        | .jnull => acc
        | .jbool _ => acc
        | .jnum _ => acc
        | x => objAssign acc (extractColorsVal x name)
      extractColorsArr rest (i + 1) pfx acc'
termination_by structural l => l
end

/-- `extractColors(obj, prefix = "")`. -/
def extractColors (obj : JsonV) (pfx : String) : List (String × ColorToken) :=
  extractColorsVal obj pfx

/-- The options-object updates of `extractTypography` (`lineHeight`, then
`letterSpacing`, then `fontWeight`). The first two call `parseToPixels`
directly, so only string values are meaningful (a non-string would raise a
`TypeError` in the source and is outside the modeled inputs); `fontWeight`
goes through `parseInt`, which coerces via `String()`. -/
def applyFontSizeOpts (tok : TypographyToken) (opts : List (String × JsonV)) :
    TypographyToken :=
  let tok₁ :=
    match opts.lookup "lineHeight" with
    | some (.jstr s) =>
        if s.isEmpty then tok
        else
          match parseToPixels s with
          | some lh => { tok with lineHeight := some lh }
          | none => tok
    | _ => tok
  let tok₂ :=
    match opts.lookup "letterSpacing" with
    | some (.jstr s) =>
        if s.isEmpty then tok₁
        else
          match parseToPixels s with
          | some ls => { tok₁ with letterSpacing := some ls }
          | none => tok₁
    | _ => tok₁
  match opts.lookup "fontWeight" with
  | some v =>
      if jsTruthy (some v) then
        match parseIntBase10 (jsToString v) with
        | some fw => { tok₂ with fontWeight := some (fw : ℚ) }
        | none => tok₂
      else tok₂
  | none => tok₂

/-- `extractTypography` over the `fontSize` entries. -/
def extractTypography (fontSize : List (String × JsonV)) :
    List (String × TypographyToken) :=
  fontSize.foldl
    (fun result p =>
      match p.2 with
      | .jstr s =>
          match parseToPixels s with
          | some px => objPut result p.1 { fontSize := px }
          | none => result
      | .jarr elems =>
          match parseToPixels
              (match elems.head? with
               | none => "undefined"       -- String(value[0]) on an empty array
               | some x => jsToString x) with
          | none => result
          | some px =>
              let tok : TypographyToken := { fontSize := px }
              let tok :=
                match (elems.drop 1).head? with
                | some (.jstr s) =>
                    match parseToPixels s with
                    | some lh => { tok with lineHeight := some lh }
                    | none => tok
                | some (.jobj opts) => applyFontSizeOpts tok opts
                | _ => tok
              objPut result p.1 tok
      | _ => result)
    []

/-- `extractNumericMap` (`spacing`, `borderRadius`). -/
def extractNumericMap (obj : List (String × JsonV)) : List (String × ℚ) :=
  obj.foldl
    (fun result p =>
      match p.2 with
      | .jnum q => objPut result p.1 q
      | .jstr s =>
          match parseToPixels s with
          | some px => objPut result p.1 px
          | none => result
      | _ => result)
    []

/-! ### Shadow strings (`parseShadow` and its regex)

`/(-?\d+(?:\.\d+)?)\s*(?:px)?\s+…\s+(rgba?\([^)]+\)|#[0-9a-fA-F]+)/` is
matched at the leftmost position where it succeeds. Between consecutive
elements at least one whitespace character is required; an optional `px`
may follow each length (possibly after spaces). The optional fourth
(spread) length is tried greedily and dropped when no color can follow
it, exactly the regex's backtracking order. -/

/-- One length token: numeral, optional spaces, optional `px`, then the
mandatory `\s+` separating it from the next element; returns the value and
the position after the separator. -/
def parseLenWS (cs : List Char) : Option (ℚ × List Char) :=
  match parseSignedDecimal cs with
  | none => none
  | some (q, rest) =>
      let spaces := rest.takeWhile isJsSpace
      let rest₁ := rest.dropWhile isJsSpace
      match rest₁ with
      | 'p' :: 'x' :: rest₂ =>
          if (rest₂.takeWhile isJsSpace).isEmpty then none
          else some (q, rest₂.dropWhile isJsSpace)
      | _ => if spaces.isEmpty then none else some (q, rest₁)

/-- The color alternative `rgba?\([^)]+\)|#[0-9a-fA-F]+`, returning the
matched characters. -/
def parseColorToken (cs : List Char) : Option (List Char) :=
  match cs with
  | '#' :: rest =>
      let hx := rest.takeWhile isHexDigit
      if hx.isEmpty then none else some ('#' :: hx)
  | 'r' :: 'g' :: 'b' :: 'a' :: '(' :: rest =>
      let inner := rest.takeWhile (fun c => !(c = ')'))
      match rest.dropWhile (fun c => !(c = ')')) with
      | ')' :: _ =>
          if inner.isEmpty then none
          else some ('r' :: 'g' :: 'b' :: 'a' :: '(' :: (inner ++ [')']))
      | _ => none
  | 'r' :: 'g' :: 'b' :: '(' :: rest =>
      let inner := rest.takeWhile (fun c => !(c = ')'))
      match rest.dropWhile (fun c => !(c = ')')) with
      | ')' :: _ =>
          if inner.isEmpty then none
          else some ('r' :: 'g' :: 'b' :: '(' :: (inner ++ [')']))
      | _ => none
  | _ => none

/-- The whole shadow pattern anchored at the front of `cs`. -/
def matchShadowAt (cs : List Char) : Option (ℚ × ℚ × ℚ × String) :=
  match parseLenWS cs with
  | none => none
  | some (x, cs₁) =>
      match parseLenWS cs₁ with
      | none => none
      | some (y, cs₂) =>
          match parseLenWS cs₂ with
          | none => none
          | some (blur, cs₃) =>
              let withSpread : Option String :=
                match parseLenWS cs₃ with
                | some (_, cs₄) =>
                    match parseColorToken cs₄ with
                    | some col => some (String.mk col)
                    | none => none
                | none => none
              match withSpread with
              | some col => some (x, y, blur, col)
              | none =>
                  match parseColorToken cs₃ with
                  | some col => some (x, y, blur, String.mk col)
                  | none => none

/-- Leftmost match of the shadow pattern. -/
def findShadowMatch : List Char → Option (ℚ × ℚ × ℚ × String)
  | [] => none
  | c :: rest =>
      match matchShadowAt (c :: rest) with
      | some r => some r
      | none => findShadowMatch rest

/-- `parseFloat` on a `[\d.]+` run (a leading-dot fraction is allowed; a
run on which `parseFloat` yields `NaN`, such as a lone dot, is `none`). -/
def parseFloatDots (cs : List Char) : Option ℚ :=
  let ip := cs.takeWhile isDigit09
  let rest := cs.dropWhile isDigit09
  match rest with
  | '.' :: rest₂ =>
      let fp := rest₂.takeWhile isDigit09
      if ip.isEmpty ∧ fp.isEmpty then none else some (decimalVal ip fp)
  | _ => if ip.isEmpty then none else some ((digitsVal ip : ℚ))

/-- `/rgba?\(\s*(\d+)\s*,\s*(\d+)\s*,\s*(\d+)\s*(?:,\s*([\d.]+))?\)/`
anchored at the front of `cs`. -/
def matchRgbaAt (cs : List Char) : Option (ℕ × ℕ × ℕ × Option ℚ) :=
  let afterHead : Option (List Char) :=
    match cs with
    | 'r' :: 'g' :: 'b' :: 'a' :: '(' :: rest => some rest
    | 'r' :: 'g' :: 'b' :: '(' :: rest => some rest
    | _ => none
  match afterHead with
  | none => none
  | some r₀ =>
      let r₁ := r₀.dropWhile isJsSpace
      let d₁ := r₁.takeWhile isDigit09
      if d₁.isEmpty then none
      else
        match (r₁.dropWhile isDigit09).dropWhile isJsSpace with
        | ',' :: r₂ =>
            let r₃ := r₂.dropWhile isJsSpace
            let d₂ := r₃.takeWhile isDigit09
            if d₂.isEmpty then none
            else
              match (r₃.dropWhile isDigit09).dropWhile isJsSpace with
              | ',' :: r₄ =>
                  let r₅ := r₄.dropWhile isJsSpace
                  let d₃ := r₅.takeWhile isDigit09
                  if d₃.isEmpty then none
                  else
                    match (r₅.dropWhile isDigit09).dropWhile isJsSpace with
                    | ')' :: _ => some (digitsVal d₁, digitsVal d₂, digitsVal d₃, none)
                    | ',' :: r₆ =>
                        let r₇ := r₆.dropWhile isJsSpace
                        let run := r₇.takeWhile (fun c => isDigit09 c || c = '.')
                        if run.isEmpty then none
                        else
                          match r₇.dropWhile (fun c => isDigit09 c || c = '.') with
                          | ')' :: _ =>
                              match parseFloatDots run with
                              | some a => some (digitsVal d₁, digitsVal d₂, digitsVal d₃, some a)
                              | none => none
                          | _ => none
                    | _ => none
              | _ => none
        | _ => none

/-- Leftmost match of the inner rgba pattern. -/
def findRgbaMatch : List Char → Option (ℕ × ℕ × ℕ × Option ℚ)
  | [] => none
  | c :: rest =>
      match matchRgbaAt (c :: rest) with
      | some r => some r
      | none => findRgbaMatch rest

/-- `n.toString(16).padStart(2, "0")`. -/
def hexByteStr (n : ℕ) : String :=
  let s := Nat.toDigits 16 n
  String.mk (if s.length < 2 then List.replicate (2 - s.length) '0' ++ s else s)

/-- `colorStr.startsWith(p)`. -/
def strStartsWith (s p : String) : Bool := p.data.isPrefixOf s.data

/-- `parseShadow` from `extract-tailwind.ts`. -/
def parseShadow (shadow : String) : Option ElevationToken :=
  match findShadowMatch shadow.data with
  | none => none
  | some (x, y, blur, colorStr) =>
      let colOp : String × ℚ :=
        if strStartsWith colorStr "rgba" then
          match findRgbaMatch colorStr.data with
          | some (r, g, b, aOpt) =>
              (jsUpper ("#" ++ hexByteStr r ++ hexByteStr g ++ hexByteStr b), aOpt.getD 1)
          | none => ("#000000", 1)
        else if strStartsWith colorStr "#" then
          let u := jsUpper colorStr
          if u.data.length = 9 then
            (String.mk (u.data.take 7),
             ((round (((parseIntHex (u.data.drop 7) : ℚ) / 255) * 100) : ℤ) : ℚ) / 100)
          else (u, 1)
        else ("#000000", 1)
      some { shadowColor := colOp.1
             shadowOffsetX := x
             shadowOffsetY := y
             shadowRadius := blur
             shadowOpacity := colOp.2 }

/-- `extractElevation` over the `boxShadow` entries. -/
def extractElevation (boxShadow : List (String × JsonV)) :
    List (String × ElevationToken) :=
  boxShadow.foldl
    (fun result p =>
      match p.2 with
      | .jstr s =>
          match parseShadow s with
          | some t => objPut result p.1 t
          | none => result
      | _ => result)
    []

/-- `themeObj.extend?.X ?? themeObj.X` — the section-selection expression
used for each of the six Tailwind theme keys. -/
def pickSection (themeObj : JsonV) (k : String) : Option JsonV :=
  let fromExtend := jPropChain (jProp themeObj "extend") k
  if isNullish fromExtend then jProp themeObj k else fromExtend

/-- The token-population phase of `extractTokensFromTailwind` (source lines
23–75), starting from the located theme object: each of the six sections is
selected via `pickSection` and extracted when it is a truthy object; the
result must contain at least one defined collection. -/
def extractTokensFromTailwindTheme (themeObj : JsonV) : Except String DesignTokens :=
  let colorsSec := pickSection themeObj "colors"
  let colors : Option (List (String × ColorToken)) :=
    if isTruthyObject colorsSec then some (extractColors (colorsSec.getD .jnull) "")
    else none
  let fontSizeSec := pickSection themeObj "fontSize"
  let typo₀ : Option (List (String × TypographyToken)) :=
    if isTruthyObject fontSizeSec then
      some (extractTypography (jEntries (fontSizeSec.getD .jnull)))
    else none
  let fontFamilySec := pickSection themeObj "fontFamily"
  let typo : Option (List (String × TypographyToken)) :=
    if isTruthyObject fontFamilySec then
      some ((jEntries (fontFamilySec.getD .jnull)).foldl
        (fun t p =>
          let family : Option String :=
            match p.2 with
            | .jarr [] => none                     -- value[0] is undefined
            | .jarr (x :: _) => some (jsToString x)
            | x => some (jsToString x)
          objPut t ("font-" ++ p.1) { fontFamily := family, fontSize := 16 })
        (typo₀.getD []))
    else typo₀
  let spacingSec := pickSection themeObj "spacing"
  let spacing : Option (List (String × ℚ)) :=
    if isTruthyObject spacingSec then
      some (extractNumericMap (jEntries (spacingSec.getD .jnull)))
    else none
  let radiiSec := pickSection themeObj "borderRadius"
  let radii : Option (List (String × ℚ)) :=
    if isTruthyObject radiiSec then
      some (extractNumericMap (jEntries (radiiSec.getD .jnull)))
    else none
  let elevSec := pickSection themeObj "boxShadow"
  let elevation : Option (List (String × ElevationToken)) :=
    if isTruthyObject elevSec then
      some (extractElevation (jEntries (elevSec.getD .jnull)))
    else none
  let tokens : DesignTokens :=
    { colors := colors, typography := typo, spacing := spacing, radii := radii,
      elevation := elevation, motion := none }
  if tokens.colors.isSome || tokens.typography.isSome || tokens.spacing.isSome ||
      tokens.radii.isSome || tokens.elevation.isSome || tokens.motion.isSome then
    .ok tokens
  else .error "Tailwind config theme contained no extractable token values."

/-! ## Figma Variables extractor (`extract-figma.ts` part of the tools)

The embedding starts from the parsed export (the `JSON.parse` /
`meta`-unwrapping preamble selects the `variables` and
`variableCollections` maps; everything after that point is modeled). A
variable's per-mode value is one of the JSON shapes of the API: a color
object, a number, a string, a boolean, or a `VARIABLE_ALIAS` reference. -/

inductive FigmaValue where
  | color (r g b a : ℚ)
  | num (q : ℚ)
  | str (s : String)
  | bool (b : Bool)
  | alias (id : String)
  deriving DecidableEq, Repr

structure FigmaVariable where
  id : String
  name : String
  resolvedType : String
  valuesByMode : List (String × FigmaValue)
  description : Option String := none
  deriving DecidableEq, Repr

structure FigmaCollection where
  id : String
  name : String
  modes : List (String × String) := []
  defaultModeId : String
  deriving DecidableEq, Repr

structure FigmaExport where
  vars : List (String × FigmaVariable)            -- the `variables` map
  variableCollections : List (String × FigmaCollection)
  deriving DecidableEq, Repr

/-- `resolveAlias(value, variables, modeId, maxDepth)`: follow
`VARIABLE_ALIAS` references (the referenced variable's value for the same
mode, else its first mode), decrementing `maxDepth`; at `maxDepth <= 0` the
current (possibly still-aliased) value is returned unchanged. -/
def resolveAlias (value : Option FigmaValue)
    (vars : List (String × FigmaVariable)) (modeId : Option String) :
    ℕ → Option FigmaValue
  | 0 => value
  | d + 1 =>
      match value with
      | some (.alias id) =>
          match vars.lookup id with
          | some target =>
              let targetValue : Option FigmaValue :=
                match modeId.bind (fun m => target.valuesByMode.lookup m) with
                | some v => some v
                | none => target.valuesByMode.head?.map (fun p => p.2)
              resolveAlias targetValue vars modeId d
          | none => value
      | _ => value

mutual
/-- `replace(/\s+/g, "-")`: each maximal whitespace run becomes one
hyphen. -/
def spacesToHyphens : List Char → List Char
  | [] => []
  | c :: rest =>
      if isJsSpace c then '-' :: spacesRun rest
      else c :: spacesToHyphens rest
termination_by structural cs => cs
/-- Skip the remainder of a whitespace run already replaced by `-`. -/
def spacesRun : List Char → List Char
  | [] => []
  | c :: rest =>
      if isJsSpace c then spacesRun rest
      else c :: spacesToHyphens rest
termination_by structural cs => cs
end

/-- `replace(/([a-z])([A-Z])/g, "$1-$2")`: insert a hyphen at each
lower-to-upper boundary, the match consuming both characters. -/
def camelSplit : List Char → List Char
  | [] => []
  | [c] => [c]
  | c :: c₂ :: rest =>
      if isLowerAZ c ∧ isUpperAZ c₂ then c :: '-' :: c₂ :: camelSplit rest
      else c :: camelSplit (c₂ :: rest)

/-- `name.split("/")` (the separator is a single character). -/
def splitOnChar (sep : Char) : List Char → List (List Char)
  | [] => [[]]
  | c :: rest =>
      if c = sep then [] :: splitOnChar sep rest
      else
        match splitOnChar sep rest with
        | [] => [[c]]
        | g :: gs => (c :: g) :: gs

/-- `normalizeVariableName`: last `/`-segment, whitespace to hyphens,
camelCase boundaries to hyphens, lowercase. -/
def normalizeVariableName (name : String) : String :=
  jsLower (String.mk (camelSplit (spacesToHyphens ((splitOnChar '/' name.data).getLastD []))))

/-- `haystack.includes(needle)`. -/
def listContainsSub (sub : List Char) : List Char → Bool
  | [] => sub.isEmpty
  | c :: rest => sub.isPrefixOf (c :: rest) || listContainsSub sub rest

def strIncludes (s sub : String) : Bool := listContainsSub sub.data s.data

/-- `inferColorCategory`: substring checks against the original variable
name, lowercased, in source order. -/
def inferColorCategory (name : String) : Option String :=
  let lower := jsLower name
  if strIncludes lower "primary" then some "primary"
  else if strIncludes lower "secondary" then some "secondary"
  else if strIncludes lower "tertiary" then some "tertiary"
  else if strIncludes lower "neutral" || strIncludes lower "gray" ||
      strIncludes lower "grey" then some "neutral"
  else if strIncludes lower "error" || strIncludes lower "danger" ||
      strIncludes lower "destructive" then some "error"
  else if strIncludes lower "surface" then some "surface"
  else if strIncludes lower "background" || strIncludes lower "bg" then some "background"
  else none

/-- `Math.round` (half away from zero does not differ from half-up on the
non-negative channel values the code meets). -/
def jsRound (q : ℚ) : ℤ := ratFloor (q + 1 / 2)

/-- `z.toString(16)` for a (possibly negative) integer. -/
def intToHexStr (z : ℤ) : String :=
  if z < 0 then "-" ++ String.mk (Nat.toDigits 16 z.natAbs)
  else String.mk (Nat.toDigits 16 z.toNat)

/-- `.padStart(2, "0")`. -/
def padStart2 (s : String) : String :=
  if s.length < 2 then String.mk (List.replicate (2 - s.length) '0' ++ s.data) else s

/-- `figmaColorToHex`: 0–1 floats scaled to 0–255, rounded, hex-encoded,
uppercased. -/
def figmaColorToHex (r g b : ℚ) : String :=
  jsUpper ("#" ++ padStart2 (intToHexStr (jsRound (r * 255))) ++
    padStart2 (intToHexStr (jsRound (g * 255))) ++
    padStart2 (intToHexStr (jsRound (b * 255))))

/-- `isColorValue`: an object carrying `r`, `g`, `b` fields. -/
def isColorValue : Option FigmaValue → Bool
  | some (.color _ _ _ _) => true
  | _ => false

/-- Accumulator of the variable loop: colors, spacing, radii. -/
abbrev FigmaAcc :=
  List (String × ColorToken) × List (String × ℚ) × List (String × ℚ)

/-- `const modeId = defaultModeId ?? Object.keys(variable.valuesByMode)[0]` —
the per-variable mode selection of the loop. -/
def figmaModeIdFor (defaultModeId : Option String) (vbl : FigmaVariable) :
    Option String :=
  defaultModeId <|> (vbl.valuesByMode.head?.map (fun q => q.1))

/-- One iteration of the `for (const variable of Object.values(variables))`
loop. -/
def figmaStep (defaultModeId : Option String)
    (vars : List (String × FigmaVariable)) (acc : FigmaAcc)
    (p : String × FigmaVariable) : FigmaAcc :=
  let vbl := p.2
  let modeId : Option String := figmaModeIdFor defaultModeId vbl
  let value₀ : Option FigmaValue :=
    modeId.bind (fun m => vbl.valuesByMode.lookup m)
  let value := resolveAlias value₀ vars modeId 10
  let name := normalizeVariableName vbl.name
  if vbl.resolvedType = "COLOR" then
    match value with
    | some (.color r g b _) =>
        let descr : Option String :=
          match vbl.description with
          | some d => if d.isEmpty then none else some d
          | none => none
        (objPut acc.1 name
          { value := figmaColorToHex r g b, description := descr,
            category := inferColorCategory vbl.name }, acc.2.1, acc.2.2)
    | _ => acc
  else if vbl.resolvedType = "FLOAT" then
    match value with
    | some (.num q) =>
        let lowerName := jsLower vbl.name
        if strIncludes lowerName "radius" || strIncludes lowerName "corner" then
          (acc.1, acc.2.1, objPut acc.2.2 name q)
        else (acc.1, objPut acc.2.1 name q, acc.2.2)
    | _ => acc
  else acc

/-- The `for (const collection of Object.values(collections)) { … break }`
loop: the default mode id of the first collection, if any. -/
def figmaDefaultModeId (ex : FigmaExport) : Option String :=
  ex.variableCollections.head?.map (fun p => p.2.defaultModeId)

/-- `extractTokensFromFigmaVariables` (post-parse): the default mode id is
taken from the first collection of the export (the `for … break` loop), one
value is selected per variable, aliases are resolved, and the mapped
collections are assembled. -/
def extractTokensFromFigmaVariables (ex : FigmaExport) : Except String DesignTokens :=
  if ex.vars.isEmpty then .error "No variables found in the Figma export."
  else
    let res : FigmaAcc :=
      ex.vars.foldl (figmaStep (figmaDefaultModeId ex) ex.vars) ([], [], [])
    let tokens : DesignTokens :=
      { colors := if res.1.isEmpty then none else some res.1
        spacing := if res.2.1.isEmpty then none else some res.2.1
        radii := if res.2.2.isEmpty then none else some res.2.2 }
    if tokens.colors.isSome || tokens.typography.isSome || tokens.spacing.isSome ||
        tokens.radii.isSome || tokens.elevation.isSome || tokens.motion.isSome then
      .ok tokens
    else .error "Figma variables found but none could be mapped to design tokens."

/-! ## DTCG alias resolution (`extract-dtcg.ts` part of the tools)

Only the alias-resolution step is needed by the claims; a flattened token
is its `$value` / inherited `$type` / `$description`. -/

structure DTCGToken where
  value : JsonV
  tokenType : Option String := none
  description : Option String := none

/-- `s.endsWith(p)`. -/
def strEndsWith (s p : String) : Bool := p.data.isSuffixOf s.data

/-- The recursion of `resolveAliases` on the remaining depth budget
`11 - depth`: budget `0` is the `depth > 10` early return. -/
def resolveAliasesFuel : ℕ → JsonV → List (String × DTCGToken) → JsonV
  | 0, value, _ => value
  | f + 1, value, tokens =>
      match value with
      | .jstr s =>
          if strStartsWith s "\x7b" && strEndsWith s "\x7d" then
            match tokens.lookup (String.mk (s.data.drop 1).dropLast) with
            | some target => resolveAliasesFuel f target.value tokens
            | none => value
          else value
      | _ => value

/-- `resolveAliases(value, tokens, depth = 0)`: a string `{path.to.token}`
is looked up in the flattened map and its `$value` resolved at `depth + 1`;
at `depth > 10` the current value is returned unchanged. -/
def resolveAliases (value : JsonV) (tokens : List (String × DTCGToken))
    (depth : ℕ) : JsonV :=
  resolveAliasesFuel (11 - depth) value tokens

/-! # Theorems

One theorem (plus witness / counterexample where required) per claim of the
specification, with the supporting lemmas they share. -/

/-! ## C9 — hex normalization -/

/-- An upper-case hex digit (`[0-9A-F]`). -/
def isUpperHexDigit (c : Char) : Bool :=
  isDigit09 c || ('A' ≤ c && c ≤ 'F')

/-- An already-normalized hex color: `#` followed by 6 or 8 upper-case hex
digits. -/
def isNormalizedHex (s : String) : Bool :=
  match s.data with
  | c :: rest =>
      c = '#' && rest.all isUpperHexDigit &&
        (decide (rest.length = 6) || decide (rest.length = 8))
  | [] => false

theorem jsUpperChar_hexenc {c : Char} (h : isUpperHexDigit c = true) :
    jsUpperChar c = c := by
  have hlow : isLowerAZ c = false := by
    simp only [isUpperHexDigit, isDigit09, Bool.or_eq_true, Bool.and_eq_true,
      decide_eq_true_eq] at h
    simp only [isLowerAZ]
    rw [Bool.eq_false_iff]
    intro hcon
    rw [Bool.and_eq_true, decide_eq_true_eq, decide_eq_true_eq] at hcon
    rcases h with ⟨_, h₂⟩ | ⟨_, h₂⟩
    · exact absurd (le_trans hcon.1 h₂) (by decide)
    · exact absurd (le_trans hcon.1 h₂) (by decide)
  simp [jsUpperChar, hlow]

theorem map_jsUpperChar_id :
    ∀ (l : List Char), l.all isUpperHexDigit = true → l.map jsUpperChar = l := by
  intro l hl
  induction l with
  | nil => rfl
  | cons c rest ih =>
    simp only [List.all_cons, Bool.and_eq_true] at hl
    simp [jsUpperChar_hexenc hl.1, ih hl.2]

/-- Claim C9: hex-color normalization is idempotent on already-normalized
(upper-case, 6- or 8-digit) inputs, and expands a 3-digit `#RGB` to the
6-digit `#RRGGBB` with each digit duplicated and upper-cased. -/
theorem normalizeHexColor_c9 :
    (∀ s : String, isNormalizedHex s = true → normalizeHexColor s = s) ∧
    (∀ r g b : Char, isHexDigit r = true → isHexDigit g = true →
      isHexDigit b = true →
      normalizeHexColor (String.mk ['#', r, g, b]) =
        String.mk ['#', jsUpperChar r, jsUpperChar r, jsUpperChar g,
                   jsUpperChar g, jsUpperChar b, jsUpperChar b]) := by
  constructor
  · intro s hs
    cases s with
    | mk data =>
      cases data with
      | nil => simp [isNormalizedHex] at hs
      | cons c rest =>
        simp only [isNormalizedHex, Bool.and_eq_true, Bool.or_eq_true,
          decide_eq_true_eq] at hs
        obtain ⟨⟨hc, hall⟩, hlen⟩ := hs
        subst hc
        have h3 : isHex3 (String.mk ('#' :: rest)) = false := by
          simp only [isHex3, Bool.and_eq_true, decide_eq_true_eq]
          rcases hlen with h | h <;> simp [h]
        rw [normalizeHexColor, if_neg (by simp [h3])]
        have : jsUpperChar '#' = '#' := by decide
        simp [jsUpper, this, map_jsUpperChar_id rest hall]
  · intro r g b hr hg hb
    have h3 : isHex3 (String.mk ['#', r, g, b]) = true := by
      simp [isHex3, hr, hg, hb]
    rw [normalizeHexColor, if_pos (by simp [h3])]
    have : jsUpperChar '#' = '#' := by decide
    simp [jsUpper, this]

/-- Witness for C9 at `"#ABCDEF"` (idempotence) and `"#F0A" → "#FF00AA"`
(expansion). -/
theorem normalizeHexColor_c9_witness :
    normalizeHexColor "#ABCDEF" = "#ABCDEF" ∧
    normalizeHexColor "#F0A" = "#FF00AA" := by
  constructor
  · exact normalizeHexColor_c9.1 "#ABCDEF" (by decide)
  · have h := normalizeHexColor_c9.2 'F' '0' 'A' (by decide) (by decide) (by decide)
    exact h

/-! ## C8 — contrast ratio: symmetry, reflexivity, white/black bound -/

theorem linearize_nonneg {c : ℝ} (h : 0 ≤ c) : 0 ≤ linearize c := by
  unfold linearize
  split
  · exact div_nonneg h (by norm_num)
  · exact Real.rpow_nonneg (by positivity) _

theorem relativeLuminance_nonneg (hex : String) : 0 ≤ relativeLuminance hex := by
  unfold relativeLuminance
  have h₀ : (0 : ℝ) ≤ (hexChannel hex 0 : ℝ) / 255 :=
    div_nonneg (Nat.cast_nonneg _) (by norm_num)
  have h₂ : (0 : ℝ) ≤ (hexChannel hex 2 : ℝ) / 255 :=
    div_nonneg (Nat.cast_nonneg _) (by norm_num)
  have h₄ : (0 : ℝ) ≤ (hexChannel hex 4 : ℝ) / 255 :=
    div_nonneg (Nat.cast_nonneg _) (by norm_num)
  have := linearize_nonneg h₀
  have := linearize_nonneg h₂
  have := linearize_nonneg h₄
  positivity

theorem linearize_one : linearize 1 = 1 := by
  unfold linearize
  rw [if_neg (by norm_num)]
  have h : ((1 : ℝ) + 0.055) / 1.055 = 1 := by norm_num
  rw [h, Real.one_rpow]

theorem linearize_zero : linearize 0 = 0 := by
  unfold linearize
  rw [if_pos (by norm_num)]
  norm_num

theorem relativeLuminance_white : relativeLuminance "#FFFFFF" = 1 := by
  unfold relativeLuminance
  have e0 : hexChannel "#FFFFFF" 0 = 255 := by decide
  have e2 : hexChannel "#FFFFFF" 2 = 255 := by decide
  have e4 : hexChannel "#FFFFFF" 4 = 255 := by decide
  rw [e0, e2, e4]
  have h : ((255 : ℕ) : ℝ) / 255 = 1 := by norm_num
  rw [h, linearize_one]
  norm_num

theorem relativeLuminance_black : relativeLuminance "#000000" = 0 := by
  unfold relativeLuminance
  have e0 : hexChannel "#000000" 0 = 0 := by decide
  have e2 : hexChannel "#000000" 2 = 0 := by decide
  have e4 : hexChannel "#000000" 4 = 0 := by decide
  rw [e0, e2, e4]
  have h : ((0 : ℕ) : ℝ) / 255 = 0 := by norm_num
  rw [h, linearize_zero]
  norm_num

/-- Claim C8: the contrast ratio is symmetric, `ratio(X, X) = 1` for every
hex color, and `ratio(white, black)` is exactly 21 in the real-valued
embedding (≈ 21 in the floating-point source). -/
theorem contrastRatio_c8 :
    (∀ h₁ h₂ : String, isHexColorStr h₁ = true → isHexColorStr h₂ = true →
      contrastRatio h₁ h₂ = contrastRatio h₂ h₁) ∧
    (∀ h : String, isHexColorStr h = true → contrastRatio h h = 1) ∧
    contrastRatio "#FFFFFF" "#000000" = 21 := by
  refine ⟨?_, ?_, ?_⟩
  · intro h₁ h₂ _ _
    unfold contrastRatio
    rw [max_comm, min_comm]
  · intro h _
    unfold contrastRatio
    rw [max_self, min_self]
    exact div_self (by have := relativeLuminance_nonneg h; positivity)
  · unfold contrastRatio
    rw [relativeLuminance_white, relativeLuminance_black]
    rw [max_eq_left (by norm_num), min_eq_right (by norm_num)]
    norm_num

/-- Witness for C8: symmetry applied at `"#FF0000"`/`"#00FF00"` and
reflexivity at `"#123456"`. -/
theorem contrastRatio_c8_witness :
    contrastRatio "#FF0000" "#00FF00" = contrastRatio "#00FF00" "#FF0000" ∧
    contrastRatio "#123456" "#123456" = 1 := by
  constructor
  · exact contrastRatio_c8.1 "#FF0000" "#00FF00" (by decide) (by decide)
  · exact contrastRatio_c8.2.1 "#123456" (by decide)

/-! ## C10 — contrast report arithmetic invariant -/

/-- Claim C10: for every token set and level, `total` is the number of
per-pair results, `passing + failing = total`, and `passing` counts exactly
the results whose normal-text flag at the requested level is `true`. -/
theorem validateContrast_c10 :
    ∀ (tokens : DesignTokens) (level : WcagLevel),
      (validateContrast tokens level).total =
        (validateContrast tokens level).results.length ∧
      (validateContrast tokens level).passing +
          (validateContrast tokens level).failing =
        (validateContrast tokens level).total ∧
      (validateContrast tokens level).passing =
        ((validateContrast tokens level).results.filter (levelFlag level)).length := by
  intro tokens level
  unfold validateContrast
  cases htc : tokens.colors with
  | none => simp
  | some colors =>
    by_cases hlen : colors.length < 2
    · simp [hlen]
    · simp only [if_neg hlen]
      refine ⟨trivial, ?_, trivial⟩
      have hle := List.length_filter_le (levelFlag level)
        ((contrastPairsUsed colors).map mkContrastResult)
      omega

/-! ## C6 — CSS extractor: first declaration wins -/

/-- First-biased choice between two optional values (the shape `Map.set`
gives lookups under the first-wins insertion policy). -/
def optOr (a b : Option α) : Option α :=
  match a with
  | some x => some x
  | none => b

theorem optOr_some (x : α) (b : Option α) : optOr (some x) b = some x := rfl

theorem optOr_none (b : Option α) : optOr (none : Option α) b = b := rfl

theorem lookup_isSome_eq_any (l : List (String × α)) (k : String) :
    (l.lookup k).isSome = l.any (fun p => p.1 = k) := by
  induction l with
  | nil => rfl
  | cons p rest ih =>
    obtain ⟨a, b⟩ := p
    by_cases hak : a = k
    · subst hak
      simp [List.lookup]
    · simp [List.lookup, hak, ih, beq_false_of_ne (Ne.symm hak)]

theorem lookup_append (l₁ l₂ : List (String × α)) (k : String) :
    (l₁ ++ l₂).lookup k = optOr (l₁.lookup k) (l₂.lookup k) := by
  induction l₁ with
  | nil => simp [List.lookup, optOr_none]
  | cons p rest ih =>
    obtain ⟨a, b⟩ := p
    by_cases hak : a = k
    · subst hak
      simp [List.lookup, optOr_some]
    · simp [List.lookup, beq_false_of_ne (Ne.symm hak), ih]

/-- Folding declarations into the map with the `if (!vars.has(name))` guard
makes each key's value the one of its first declaration. -/
theorem foldFirstWins (ds : List (String × String)) :
    ∀ (acc : List (String × String)) (k : String),
      (ds.foldl
        (fun vars d => if vars.any (fun p => p.1 = d.1) then vars else vars ++ [d])
        acc).lookup k
        = optOr (acc.lookup k) ((ds.find? (fun d => d.1 == k)).map (fun d => d.2)) := by
  induction ds with
  | nil =>
    intro acc k
    cases h : acc.lookup k <;> simp [optOr, h]
  | cons d rest ih =>
    intro acc k
    simp only [List.foldl_cons]
    by_cases hd1 : acc.any (fun p => p.1 = d.1)
    · rw [if_pos hd1, ih]
      by_cases hk : d.1 = k
      · subst hk
        have hs : (acc.lookup d.1).isSome := by
          rw [lookup_isSome_eq_any]; exact hd1
        obtain ⟨v, hv⟩ := Option.isSome_iff_exists.mp hs
        simp [hv, optOr_some]
      · simp [List.find?, beq_false_of_ne hk]
    · rw [if_neg hd1, ih, lookup_append]
      by_cases hk : d.1 = k
      · subst hk
        have hnone : acc.lookup d.1 = none := by
          cases hl : acc.lookup d.1 with
          | none => rfl
          | some v =>
            exfalso
            apply hd1
            have := lookup_isSome_eq_any acc d.1
            rw [hl] at this
            simpa using this.symm
        rw [hnone, optOr_none, optOr_none]
        obtain ⟨a, b⟩ := d
        simp [List.lookup, List.find?, optOr_some]
      · obtain ⟨a, b⟩ := d
        simp only at hk
        cases hl : acc.lookup k <;>
          simp [List.lookup, List.find?, beq_false_of_ne hk,
            beq_false_of_ne (Ne.symm hk), hl, optOr]

/-- Claim C6: when the same custom-property name is declared more than once,
the map built by `parseCustomProperties` holds the value of the first
declaration in textual order and ignores every later one; repetition raises
no error (the function has no failure path — it always returns the map). -/
theorem parseCustomProperties_c6 :
    (∀ (css : String) (name : String),
      (parseCustomProperties css).lookup name =
        ((scanDecls (stripBlockComments css.data)).find?
          (fun d => d.1 == name)).map (fun d => d.2)) ∧
    parseCustomProperties ":root \x7b --x: 1px; \x7d .dark \x7b --x: 2px; \x7d" =
      [("--x", "1px")] := by
  constructor
  · intro css name
    unfold parseCustomProperties
    rw [foldFirstWins]
    rfl
  · decide

/-! ## C7 — depth-bounded alias resolution -/

/-- A two-variable cyclic alias graph (`a → b → a`) for the variable-graph
extractor. -/
def figmaAliasCycle : List (String × FigmaVariable) :=
  [("a", { id := "a", name := "A", resolvedType := "COLOR",
           valuesByMode := [("m", .alias "b")] }),
   ("b", { id := "b", name := "B", resolvedType := "COLOR",
           valuesByMode := [("m", .alias "a")] })]

/-- A two-token cyclic alias graph (`{a} → {b} → {a}`) for the DTCG
extractor. -/
def dtcgAliasCycle : List (String × DTCGToken) :=
  [("a", { value := .jstr "{b}" }), ("b", { value := .jstr "{a}" })]

/-- Claim C7: alias resolution in the variable-graph extractor and in the
DTCG extractor is total for every input because the recursive lookup is
bounded at depth 10; at the bound (`maxDepth <= 0`, resp. `depth > 10`) it
returns the last-seen value unchanged, and on a cyclic graph the result is
a still-aliased value rather than a failure. -/
theorem aliasResolution_c7 :
    (∀ (v : Option FigmaValue) (vs : List (String × FigmaVariable))
        (m : Option String), resolveAlias v vs m 0 = v) ∧
    (∀ (v : JsonV) (toks : List (String × DTCGToken)) (d : ℕ), d > 10 →
      resolveAliases v toks d = v) ∧
    resolveAlias (some (.alias "a")) figmaAliasCycle (some "m") 10 =
      some (.alias "a") ∧
    resolveAliases (.jstr "{a}") dtcgAliasCycle 0 = .jstr "{b}" := by
  refine ⟨?_, ?_, ?_, ?_⟩
  · intro v vs m
    rfl
  · intro v toks d hd
    unfold resolveAliases
    have h0 : 11 - d = 0 := by omega
    rw [h0]
    rfl
  · decide
  · rfl

/-- Witness for C7's bound clause: at depth 11 the DTCG resolver returns
its input even when the alias target exists. -/
theorem aliasResolution_c7_witness :
    resolveAliases (.jstr "{a}") dtcgAliasCycle 11 = .jstr "{a}" :=
  aliasResolution_c7.2.1 (.jstr "{a}") dtcgAliasCycle 11 (by decide)

/-! ## C5 — fontWeight validation -/

theorem fontWeightIssues_bad {w : ℚ}
    (h : ¬(w.den = 1 ∧ 100 ≤ w ∧ w ≤ 900 ∧ w.num % 100 = 0)) :
    ∃ msg, ([], msg) ∈ fontWeightIssues (.jnum w) := by
  by_cases h1 : w.den = 1
  · by_cases h2 : w < 100
    · exact ⟨"fontWeight minimum is 100", by simp [fontWeightIssues, h1, h2]⟩
    · by_cases h3 : 900 < w
      · exact ⟨"fontWeight maximum is 900", by simp [fontWeightIssues, h1, h2, h3]⟩
      · have h4 : ¬w.num % 100 = 0 := fun hc =>
          h ⟨h1, not_lt.mp h2, not_lt.mp h3, hc⟩
        exact ⟨"fontWeight must be a multiple of 100",
          by simp [fontWeightIssues, h1, h2, h3, h4]⟩
  · exact ⟨"Expected integer", by simp [fontWeightIssues, h1]⟩

theorem typography_fontWeight_mem {tokFields : List (String × JsonV)} {w : ℚ}
    {msg : String} (hlk : tokFields.lookup "fontWeight" = some (.jnum w))
    (hmem : ([], msg) ∈ fontWeightIssues (.jnum w)) :
    (["fontWeight"], msg) ∈ typographyTokenIssues (.jobj tokFields) := by
  simp only [typographyTokenIssues]
  refine List.mem_append.mpr (Or.inl ?_)
  refine List.mem_append.mpr (Or.inr ?_)
  simp only [optionalField, hlk, prefixIssues]
  exact List.mem_map.mpr ⟨([], msg), hmem, rfl⟩

/-- Claim C5: a typography token carrying a `fontWeight` that is not an
integer multiple of 100 inside `[100, 900]` makes validation fail with an
issue at `typography.<name>.fontWeight`; a multiple of 100 inside the range
produces no `fontWeight` issue at all. -/
theorem fontWeight_c5 :
    (∀ (l : List (String × JsonV)) (name : String)
        (tokFields : List (String × JsonV)) (w : ℚ),
      (name, JsonV.jobj tokFields) ∈ l →
      tokFields.lookup "fontWeight" = some (.jnum w) →
      ¬(w.den = 1 ∧ 100 ≤ w ∧ w ≤ 900 ∧ w.num % 100 = 0) →
      (validateTokens (.jobj [("typography", .jobj l)])).valid = false ∧
      ∃ msg, (["typography", name, "fontWeight"], msg) ∈
        designTokensIssues (.jobj [("typography", .jobj l)])) ∧
    (∀ (w : ℚ), w.den = 1 → 100 ≤ w → w ≤ 900 → w.num % 100 = 0 →
      fontWeightIssues (.jnum w) = []) := by
  constructor
  · intro l name tokFields w hmem hlk hbad
    obtain ⟨msg, hmsg⟩ := fontWeightIssues_bad hbad
    have htok := typography_fontWeight_mem hlk hmsg
    have hrec : (name :: ["fontWeight"], msg) ∈
        recordIssues typographyTokenIssues (.jobj l) := by
      simp only [recordIssues]
      exact List.mem_flatMap.mpr
        ⟨(name, .jobj tokFields), hmem, List.mem_map.mpr ⟨_, htok, rfl⟩⟩
    have hpm : ("typography" :: name :: ["fontWeight"], msg) ∈
        prefixIssues "typography" (recordIssues typographyTokenIssues (.jobj l)) :=
      List.mem_map.mpr ⟨_, hrec, rfl⟩
    have hne : ¬(prefixIssues "typography"
        (recordIssues typographyTokenIssues (.jobj l))).isEmpty = true := by
      intro hempty
      rw [List.isEmpty_iff] at hempty
      rw [hempty] at hpm
      exact absurd hpm (List.not_mem_nil _)
    have hobj : (["typography", name, "fontWeight"], msg) ∈
        designTokensIssues (.jobj [("typography", .jobj l)]) := by
      have hc : (List.lookup "colors" [("typography", JsonV.jobj l)]) = none := rfl
      have ht : (List.lookup "typography" [("typography", JsonV.jobj l)])
        = some (JsonV.jobj l) := rfl
      have hs : (List.lookup "spacing" [("typography", JsonV.jobj l)]) = none := rfl
      have hrd : (List.lookup "radii" [("typography", JsonV.jobj l)]) = none := rfl
      have he : (List.lookup "elevation" [("typography", JsonV.jobj l)]) = none := rfl
      have hm : (List.lookup "motion" [("typography", JsonV.jobj l)]) = none := rfl
      simp only [designTokensIssues, optionalField, hc, ht, hs, hrd, he, hm,
        List.nil_append, List.append_nil]
      rw [if_neg hne]
      exact hpm
    constructor
    · have hne : designTokensIssues (.jobj [("typography", .jobj l)]) ≠ [] := by
        intro hempty
        rw [hempty] at hobj
        exact absurd hobj (List.not_mem_nil _)
      simp only [validateTokens]
      rw [if_neg (by simpa [List.isEmpty_iff] using hne)]
    · exact ⟨msg, hobj⟩
  · intro w h1 h2 h3 h4
    simp [fontWeightIssues, h1, not_lt.mpr h2, not_lt.mpr h3, h4]

/-- Witness for C5: weight 450 (not a multiple of 100) is rejected at
`typography.h.fontWeight`; weight 400 yields no fontWeight issue. -/
theorem fontWeight_c5_witness :
    ((validateTokens (.jobj [("typography", .jobj
        [("h", .jobj [("fontSize", .jnum 16), ("fontWeight", .jnum 450)])])])).valid
        = false ∧
      ∃ msg, (["typography", "h", "fontWeight"], msg) ∈
        designTokensIssues (.jobj [("typography", .jobj
          [("h", .jobj [("fontSize", .jnum 16), ("fontWeight", .jnum 450)])])])) ∧
    fontWeightIssues (.jnum 400) = [] := by
  constructor
  · exact fontWeight_c5.1
      [("h", .jobj [("fontSize", .jnum 16), ("fontWeight", .jnum 450)])] "h"
      [("fontSize", .jnum 16), ("fontWeight", .jnum 450)] 450
      (List.Mem.head _) rfl (by intro hc; exact absurd hc.2.2.2 (by decide))
  · exact fontWeight_c5.2 400 (by decide) (by decide) (by decide) (by decide)

/-! ## C2 — validity requires a present collection, not a non-empty one -/

/-- Counterexample to C2 as stated: `{colors: {}}`, a value in which every
present collection is an empty mapping, is accepted by validation (the
schema's refinement only checks that some collection is defined). -/
theorem validateTokens_c2_counterexample :
    (validateTokens (.jobj [("colors", .jobj [])])).valid = true ∧
    (validateTokens (.jobj [("colors", .jobj [])])).errors = [] := by
  constructor <;> decide

/-- C2 amended: a structured value is accepted only if it is an object in
which at least one of the six collection keys is present; presence alone
suffices — a present collection may be an empty mapping — and only the
object with no collection key at all (in particular `{}`) is rejected on
this ground. -/
theorem validateTokens_c2_amended :
    (∀ j : JsonV, (validateTokens j).valid = true →
      ∃ fields, j = JsonV.jobj fields ∧
        ∃ k ∈ sixCollectionKeys, (fields.lookup k).isSome = true) ∧
    (validateTokens (.jobj [])).valid = false ∧
    (validateTokens (.jobj [("colors", .jobj [])])).valid = true ∧
    (validateTokens (.jobj [("typography", .jobj [])])).valid = true ∧
    (validateTokens (.jobj [("spacing", .jobj [])])).valid = true ∧
    (validateTokens (.jobj [("radii", .jobj [])])).valid = true ∧
    (validateTokens (.jobj [("elevation", .jobj [])])).valid = true ∧
    (validateTokens (.jobj [("motion", .jobj [])])).valid = true := by
  refine ⟨?_, by decide, by decide, by decide, by decide, by decide, by decide,
    by decide⟩
  intro j hv
  have hissues : designTokensIssues j = [] := by
    by_contra hne
    simp only [validateTokens] at hv
    rw [if_neg (by simpa [List.isEmpty_iff] using hne)] at hv
    exact absurd hv (by simp)
  cases j with
  | jobj fields =>
    refine ⟨fields, rfl, ?_⟩
    simp only [designTokensIssues] at hissues
    by_cases hany : sixCollectionKeys.any (fun k => (fields.lookup k).isSome)
    · obtain ⟨k, hk, hks⟩ := List.any_eq_true.mp hany
      exact ⟨k, hk, hks⟩
    · exfalso
      rw [if_neg hany] at hissues
      split at hissues
      · exact absurd hissues (by simp)
      · rename_i hobj
        exact hobj (by rw [List.isEmpty_iff]; exact hissues)
  | jnull => simp [designTokensIssues] at hissues
  | jbool b => simp [designTokensIssues] at hissues
  | jnum q => simp [designTokensIssues] at hissues
  | jstr s => simp [designTokensIssues] at hissues
  | jarr xs => simp [designTokensIssues] at hissues

/-- Witness for C2's amended acceptance condition applied at
`{colors: {}}`. -/
theorem validateTokens_c2_amended_witness :
    ∃ k ∈ sixCollectionKeys,
      ((([("colors", JsonV.jobj [])] : List (String × JsonV))).lookup k).isSome
        = true := by
  obtain ⟨fields, heq, k, hk, hks⟩ :=
    validateTokens_c2_amended.1 (.jobj [("colors", .jobj [])]) (by decide)
  injection heq with h'
  subst h'
  exact ⟨k, hk, hks⟩

/-! ## C1 — Tailwind `extend` precedence is wholesale, not a leaf merge -/

/-- The theme object of
`{ theme: { colors: { top: "#111111" }, extend: { colors: { ext: "#222222" } } } }`. -/
def tailwindThemeBothColors : JsonV :=
  .jobj [("colors", .jobj [("top", .jstr "#111111")]),
         ("extend", .jobj [("colors", .jobj [("ext", .jstr "#222222")])])]

/-- Counterexample to C1 as stated: with both top-level `colors` and
`extend.colors` present, extraction keeps only the extend entries — the
top-level entry `top` is discarded wholesale instead of being merged at the
leaf level. -/
theorem tailwind_c1_counterexample :
    extractTokensFromTailwindTheme tailwindThemeBothColors =
      .ok { colors := some [("ext", { value := "#222222" })] } := by decide

/-- C1 amended: `extend.X ?? X` selects the extend section wholesale — for
each of the six theme keys, whenever `themeObj.extend?.X` is non-nullish the
selected section is exactly it and the top-level `X` is ignored; in
particular when `extend.colors` is a truthy object the extracted colors come
from it alone. -/
theorem tailwind_c1_amended :
    (∀ (themeObj : JsonV) (k : String) (v : JsonV),
      jPropChain (jProp themeObj "extend") k = some v →
      isNullish (some v) = false →
      pickSection themeObj k = some v) ∧
    (∀ (themeObj : JsonV) (e : JsonV),
      jPropChain (jProp themeObj "extend") "colors" = some e →
      isTruthyObject (some e) = true →
      (extractTokensFromTailwindTheme themeObj).toOption.map
          (fun t => t.colors) =
        some (some (extractColors e ""))) := by
  constructor
  · intro themeObj k v hchain hnn
    simp [pickSection, hchain, hnn]
  · intro themeObj e hch htr
    have hnn : isNullish (some e) = false := by
      cases e <;> simp_all [isTruthyObject, isNullish]
    have hps : pickSection themeObj "colors" = some e := by
      simp [pickSection, hch, hnn]
    simp only [extractTokensFromTailwindTheme, hps, htr]
    simp only [Option.getD_some, if_true]
    rw [if_pos (by simp)]
    rfl

/-- Witness for C1's amended selection at the concrete two-section theme. -/
theorem tailwind_c1_amended_witness :
    pickSection tailwindThemeBothColors "colors" =
      some (.jobj [("ext", .jstr "#222222")]) ∧
    (extractTokensFromTailwindTheme tailwindThemeBothColors).toOption.map
        (fun t => t.colors) =
      some (some (extractColors (.jobj [("ext", .jstr "#222222")]) "")) := by
  constructor
  · exact tailwind_c1_amended.1 tailwindThemeBothColors "colors" _ rfl rfl
  · exact tailwind_c1_amended.2 tailwindThemeBothColors _ rfl rfl

/-! ## C3 — the variable-graph extractor uses one global default mode -/

/-- An export with two collections whose default modes differ: `c1` defaults
to `m1`, `c2` to `m2`; `Colors/Alpha` has a value for `m1` only,
`Colors/Beta` for `m2` only. -/
def figmaTwoCollections : FigmaExport :=
  { vars := [("v1", { id := "v1", name := "Colors/Alpha", resolvedType := "COLOR",
                      valuesByMode := [("m1", .color 0 0 0 1)] }),
             ("v2", { id := "v2", name := "Colors/Beta", resolvedType := "COLOR",
                      valuesByMode := [("m2", .color 1 1 1 1)] })],
    variableCollections :=
      [("c1", { id := "c1", name := "A", defaultModeId := "m1" }),
       ("c2", { id := "c2", name := "B", defaultModeId := "m2" })] }

unseal Rat.mul Rat.add Rat.sub Rat.inv in
/-- Counterexample to C3 as stated: `Colors/Beta` carries a COLOR value for
mode `m2` — the default mode of the second collection — yet extraction maps
no token for it, because every variable is read at the first collection's
default mode `m1`; only `alpha` appears in the output. -/
theorem figma_c3_counterexample :
    extractTokensFromFigmaVariables figmaTwoCollections =
      .ok { colors := some [("alpha", { value := "#000000" })] } ∧
    (figmaTwoCollections.vars.lookup "v2").map
        (fun v => v.valuesByMode.lookup "m2") =
      some (some (.color 1 1 1 1)) := by
  constructor
  · decide
  · decide

/-- C3 amended: the extractor computes one global default mode id — the
`defaultModeId` of the export's first collection — and selects every
variable's value for that id; the fallback to a variable's first available
mode applies only when the export has no collections at all, and a variable
without a value for the global mode id (like `Colors/Beta` above) yields no
token. -/
theorem figma_c3_amended :
    (∀ (dm : String) (vbl : FigmaVariable),
      figmaModeIdFor (some dm) vbl = some dm) ∧
    (∀ (vbl : FigmaVariable),
      figmaModeIdFor none vbl = vbl.valuesByMode.head?.map (fun q => q.1)) ∧
    (∀ (ex : FigmaExport) (c : String × FigmaCollection)
        (rest : List (String × FigmaCollection)),
      ex.variableCollections = c :: rest →
      figmaDefaultModeId ex = some c.2.defaultModeId) ∧
    ((figmaTwoCollections.vars.lookup "v2").map
        (fun v => (figmaModeIdFor (figmaDefaultModeId figmaTwoCollections) v).bind
          (fun m => v.valuesByMode.lookup m)) = some none) := by
  refine ⟨?_, ?_, ?_, by decide⟩
  · intro dm vbl
    rfl
  · intro vbl
    rfl
  · intro ex c rest h
    simp [figmaDefaultModeId, h]

/-- Witness for C3's amended selection rule at a concrete variable and the
concrete two-collection export. -/
theorem figma_c3_amended_witness :
    figmaModeIdFor (some "m1")
      { id := "v2", name := "Colors/Beta", resolvedType := "COLOR",
        valuesByMode := [("m2", FigmaValue.color 1 1 1 1)] } = some "m1" ∧
    figmaDefaultModeId figmaTwoCollections = some "m1" := by
  constructor
  · exact figma_c3_amended.1 "m1" _
  · exact figma_c3_amended.2.2.1 figmaTwoCollections
      ("c1", { id := "c1", name := "A", defaultModeId := "m1" }) _ rfl

/-! ## C4 — the foreground/background fallback pairing is unconditional -/

/-- Folding `fallbackStep` only ever appends to the initial pair list, and
everything appended is the pair of one of the candidates. -/
theorem foldl_fallbackStep_append :
    ∀ (cands : List ((String × ColorToken) × (String × ColorToken)))
      (init : List ColorPair),
      ∃ rest, List.foldl fallbackStep init cands = init ++ rest ∧
        ∀ p ∈ rest, ∃ c ∈ cands,
          p = ⟨c.1.1 ++ " on " ++ c.2.1, c.1.2.value, c.2.2.value⟩ := by
  intro cands
  induction cands with
  | nil => exact fun init => ⟨[], by simp⟩
  | cons c cs ih =>
    intro init
    rw [List.foldl_cons]
    by_cases hdup :
        init.any (fun p => p.name = c.1.1 ++ " on " ++ c.2.1)
    · obtain ⟨rest, hfold, hmem⟩ := ih init
      rw [fallbackStep, if_pos hdup]
      exact ⟨rest, hfold, fun p hp =>
        (hmem p hp).elim (fun c' hc' => ⟨c', List.mem_cons_of_mem _ hc'.1, hc'.2⟩)⟩
    · obtain ⟨rest, hfold, hmem⟩ :=
        ih (init ++ [⟨c.1.1 ++ " on " ++ c.2.1, c.1.2.value, c.2.2.value⟩])
      rw [fallbackStep, if_neg hdup, hfold, List.append_assoc]
      refine ⟨_ ++ rest, rfl, ?_⟩
      intro p hp
      rcases List.mem_append.mp hp with hp | hp
      · rw [List.mem_singleton] at hp
        exact ⟨c, List.mem_cons_self _ _, hp⟩
      · obtain ⟨c', hc', hpc⟩ := hmem p hp
        exact ⟨c', List.mem_cons_of_mem _ hc', hpc⟩

/-- The color set of the counterexample: an `on-primary`/`primary`
companion pair exists, and separately `text` and `surface` match the
foreground-like / background-like name sets. -/
def colorsWithCompanionAndFallback : List (String × ColorToken) :=
  [("primary", { value := "#000000" }), ("on-primary", { value := "#FFFFFF" }),
   ("text", { value := "#111111" }), ("surface", { value := "#EEEEEE" })]

/-- Counterexample to C4 as stated: although step 1 finds the companion pair
`on-primary on primary`, the pair list also contains the fallback pair
`text on surface` — so the fallback is not restricted to the zero-companion
case, and the list is not made of companion pairs alone. -/
theorem findSemanticPairs_c4_counterexample :
    findSemanticPairs colorsWithCompanionAndFallback =
      [⟨"on-primary on primary", "#FFFFFF", "#000000"⟩,
       ⟨"text on surface", "#111111", "#EEEEEE"⟩] ∧
    onCompanionPairs colorsWithCompanionAndFallback =
      [⟨"on-primary on primary", "#FFFFFF", "#000000"⟩] := by
  constructor
  · decide
  · decide

/-- C4 amended: the foreground-like/background-like pairing runs
unconditionally after the companion search — the pair list is always the
companion pairs followed by fallback pairs (each built from a
foreground-like and a background-like color, added unless its name is
already taken); only the exhaustive all-combinations pairing is reserved
for the case where no semantic pair of either kind was found. -/
theorem findSemanticPairs_c4_amended :
    (∀ colors : List (String × ColorToken),
      ∃ rest, findSemanticPairs colors = onCompanionPairs colors ++ rest ∧
        ∀ p ∈ rest, ∃ fg bg, fg ∈ colors ∧ bg ∈ colors ∧
          isForegroundLikeName fg.1 = true ∧ isBackgroundLikeName bg.1 = true ∧
          p = ⟨fg.1 ++ " on " ++ bg.1, fg.2.value, bg.2.value⟩) ∧
    (∀ colors : List (String × ColorToken), findSemanticPairs colors ≠ [] →
      contrastPairsUsed colors = findSemanticPairs colors) := by
  constructor
  · intro colors
    obtain ⟨rest, hfold, hmem⟩ := foldl_fallbackStep_append
      ((colors.filter (fun p => isForegroundLikeName p.1)).flatMap
        (fun fg => (colors.filter (fun p => isBackgroundLikeName p.1)).map
          (fun bg => (fg, bg))))
      (onCompanionPairs colors)
    refine ⟨rest, hfold, ?_⟩
    intro p hp
    obtain ⟨c, hc, hpc⟩ := hmem p hp
    obtain ⟨fg, hfg, hcg⟩ := List.mem_flatMap.mp hc
    obtain ⟨bg, hbg, hcb⟩ := List.mem_map.mp hcg
    obtain ⟨hfgmem, hfglike⟩ := List.mem_filter.mp hfg
    obtain ⟨hbgmem, hbglike⟩ := List.mem_filter.mp hbg
    subst hcb
    exact ⟨fg, bg, hfgmem, hbgmem, hfglike, hbglike, hpc⟩
  · intro colors hne
    simp only [contrastPairsUsed]
    rw [if_neg (by simpa [List.isEmpty_iff] using hne)]

/-- Witness for C4's amended decomposition at the concrete color set, where
both a companion pair and a fallback pair are produced, and for the
exhaustive-fallback guard. -/
theorem findSemanticPairs_c4_amended_witness :
    (∃ rest, findSemanticPairs colorsWithCompanionAndFallback =
        onCompanionPairs colorsWithCompanionAndFallback ++ rest ∧
      ∀ p ∈ rest, ∃ fg bg, fg ∈ colorsWithCompanionAndFallback ∧
        bg ∈ colorsWithCompanionAndFallback ∧
        isForegroundLikeName fg.1 = true ∧ isBackgroundLikeName bg.1 = true ∧
        p = ⟨fg.1 ++ " on " ++ bg.1, fg.2.value, bg.2.value⟩) ∧
    contrastPairsUsed colorsWithCompanionAndFallback =
      findSemanticPairs colorsWithCompanionAndFallback := by
  constructor
  · exact findSemanticPairs_c4_amended.1 colorsWithCompanionAndFallback
  · exact findSemanticPairs_c4_amended.2 colorsWithCompanionAndFallback
      (by decide)

end TokenBridge
